/-
Verification of the line-oriented record-reconstruction engine of the jc
`git log` parser (src/jc/parsers/git_log.py) and of the streaming driver
template (src/jc/parsers/foo_s.py).

The Python code is shallowly embedded: Python strings are Lean `String`s
manipulated through their character lists, dictionaries with a fixed key
set become structures of `Option` fields (a key is present iff the field
is `some`), and Python exceptions (IndexError, KeyError,
UnboundLocalError) are modelled with `Except`.
-/
import Mathlib

namespace GitLog

/-- The whitespace characters recognised by Python's `str.split`,
`str.strip`, `str.isspace` and the regex class `\s`, restricted to the
ASCII range (the inputs in scope are ASCII text). -/
def isPySpace (c : Char) : Bool :=
  c == ' ' || c == '\t' || c == '\n' || c == '\r' || c == '\x0b' || c == '\x0c'

/-- The regex class `\d`, i.e. an ASCII decimal digit. -/
def isDigitChar (c : Char) : Bool :=
  '0' ≤ c && c ≤ '9'

/-- Python `s.startswith(p)`. -/
def pyStartsWith (s p : String) : Bool :=
  p.toList.isPrefixOf s.toList

/-- Helper for substring containment on character lists. -/
def listInfix (pat : List Char) : List Char → Bool
  | [] => pat.isEmpty
  | c :: rest => pat.isPrefixOf (c :: rest) || listInfix pat rest

/-- Python `pat in s` (substring containment). -/
def pyContains (s pat : String) : Bool :=
  listInfix pat.toList s.toList

/-- Python `s.split(maxsplit=1)`: split on runs of whitespace, at most
once; leading whitespace is discarded, the remainder after the first
token keeps its trailing text verbatim. The result has 0, 1 or 2
elements. -/
def splitMax1 (line : String) : List String :=
  let cs := line.toList.dropWhile isPySpace
  if cs.isEmpty then []
  else
    let tok := cs.takeWhile (fun c => !isPySpace c)
    let rest := (cs.dropWhile (fun c => !isPySpace c)).dropWhile isPySpace
    if rest.isEmpty then [String.mk tok]
    else [String.mk tok, String.mk rest]

/-- Python `s.rsplit(maxsplit=1)`: split on the last whitespace run.
The result has 0, 1 or 2 elements. -/
def rsplitMax1 (s : String) : List String :=
  let cs := s.toList.reverse.dropWhile isPySpace
  if cs.isEmpty then []
  else
    let tok := cs.takeWhile (fun c => !isPySpace c)
    let rest := (cs.dropWhile (fun c => !isPySpace c)).dropWhile isPySpace
    if rest.isEmpty then [String.mk tok.reverse]
    else [String.mk rest.reverse, String.mk tok.reverse]

/-- Python `s.strip(c)` for a single-character argument: remove every
leading and trailing occurrence of `c`. -/
def stripChar (c : Char) (s : String) : String :=
  String.mk (((s.toList.dropWhile (· == c)).reverse.dropWhile (· == c)).reverse)

/-- Python `s.strip('<').strip('>')` as used on the email token. -/
def stripAngles (s : String) : String :=
  stripChar '>' (stripChar '<' s)

/-- Python `s.strip()`: remove all leading and trailing whitespace. -/
def pyStrip (s : String) : String :=
  String.mk (((s.toList.dropWhile isPySpace).reverse.dropWhile isPySpace).reverse)

/-- Python `line.split('|')[0].strip()` as used on file-name lines:
the text before the first `|` (the whole line if there is none),
stripped of surrounding whitespace. -/
def fileNameOf (line : String) : String :=
  pyStrip (String.mk (line.toList.takeWhile (fun c => c != '|')))

/-- Python `s or d` for strings: `d` if `s` is empty, else `s`. -/
def pyOr (s d : String) : String :=
  if s == "" then d else s

/-- Python `str.splitlines`, modelled for the line terminators
`\r\n`, `\r` and `\n` (the terminators occurring in `git log` output;
the exotic Unicode terminators are not modelled). -/
def splitLinesAux : List Char → List Char → List String
  | [], acc => if acc.isEmpty then [] else [String.mk acc.reverse]
  | '\r' :: '\n' :: rest, acc => String.mk acc.reverse :: splitLinesAux rest []
  | '\r' :: rest, acc => String.mk acc.reverse :: splitLinesAux rest []
  | '\n' :: rest, acc => String.mk acc.reverse :: splitLinesAux rest []
  | c :: rest, acc => splitLinesAux rest (c :: acc)

/-- Split an input string into its lines (see `splitLinesAux`). -/
def splitLines (s : String) : List String :=
  splitLinesAux s.toList []

/-- `jc.utils.has_data` for strings: true iff the data contains a
non-whitespace character (Python `data and not data.isspace()`). -/
def hasData (data : String) : Bool :=
  data.toList.any (fun c => !isPySpace c)

/-- `_is_commit_hash` from git_log.py: the token has length 40 and
`hash_pattern = (?:[0-9]|[a-f]){40}` matches it, i.e. every character is
a lowercase hexadecimal digit. -/
def _is_commit_hash (hash_string : String) : Bool :=
  hash_string.toList.length == 40 &&
    hash_string.toList.all (fun c => isDigitChar c || ('a' ≤ c && c ≤ 'f'))

/- ### The stats regex

`changes_pattern` from git_log.py, line 152:

  \s(?P<files>\d+)\s+(files? changed),\s+(?P<insertions>\d+)\s
  (insertions?\(\+\))?(,\s+)?(?P<deletions>\d+)?(\s+deletions?\(\-\))?

`changes_pattern.match(line)` anchors at the start of the line and
allows trailing unmatched text.  Every alternative point of the pattern
separates disjoint character classes, so greedy matching without
backtracking (implemented below) coincides with the regex engine. -/

/-- Consume one or more `\d` characters; fails if there is none. -/
def takeDigits1 (cs : List Char) : Option (List Char × List Char) :=
  let ds := cs.takeWhile isDigitChar
  if ds.isEmpty then none else some (ds, cs.dropWhile isDigitChar)

/-- Consume exactly one `\s` character. -/
def takeWs1 : List Char → Option (List Char)
  | c :: rest => if isPySpace c then some rest else none
  | [] => none

/-- Consume one or more `\s` characters (`\s+`). -/
def takeWs1Plus : List Char → Option (List Char)
  | c :: rest => if isPySpace c then some (rest.dropWhile isPySpace) else none
  | [] => none

/-- Consume a literal character sequence. -/
def takeLit (pat : List Char) (cs : List Char) : Option (List Char) :=
  if pat.isPrefixOf cs then some (cs.drop pat.length) else none

/-- Attempt an optional group: on failure the input is left unchanged. -/
def tryOpt (f : List Char → Option (List Char)) (cs : List Char) : List Char :=
  match f cs with
  | some cs' => cs'
  | none => cs

/-- The optional group `(insertions?\(\+\))?`. -/
def insWord (cs : List Char) : Option (List Char) := do
  let cs ← takeLit "insertion".toList cs
  let cs := tryOpt (takeLit "s".toList) cs
  takeLit "(+)".toList cs

/-- The optional group `(,\s+)?`. -/
def commaWs (cs : List Char) : Option (List Char) := do
  let cs ← takeLit ",".toList cs
  takeWs1Plus cs

/-- `changes_pattern.match(line)`: on success returns the texts of the
named groups `files` and `insertions` (always captured) and `deletions`
(captured only when the optional digit group participated, `none`
otherwise). -/
def changes_pattern_match (line : String) :
    Option (String × String × Option String) := do
  let cs ← takeWs1 line.toList
  let (fds, cs) ← takeDigits1 cs
  let cs ← takeWs1Plus cs
  let cs ← takeLit "file".toList cs
  let cs := tryOpt (takeLit "s".toList) cs
  let cs ← takeLit " changed".toList cs
  let cs ← takeLit ",".toList cs
  let cs ← takeWs1Plus cs
  let (ids, cs) ← takeDigits1 cs
  let cs ← takeWs1 cs
  let cs := tryOpt insWord cs
  let cs := tryOpt commaWs cs
  let dOpt := match takeDigits1 cs with
    | some (dds, _) => some (String.mk dds)
    | none => none
  pure (String.mk fds, String.mk ids, dOpt)

/- ### Data model -/

/-- The `stats` dictionary attached to a record.  The three counts are
always present when the dictionary exists; the `files` key is present
only once a file list has been attached at flush time. -/
structure Stats where
  files_changed : String
  insertions : String
  deletions : String
  files : Option (List String) := none
deriving DecidableEq

/-- One reconstructed record (`output_line` in the source).  Every key a
branch of the parser can set appears as a field; a key is present in the
Python dictionary iff the field is `some`. -/
structure Record where
  commit : Option String := none
  merge : Option String := none
  author : Option String := none
  author_email : Option String := none
  date : Option String := none
  commit_by_date : Option String := none
  commit_by : Option String := none
  commit_by_email : Option String := none
  message : Option String := none
  stats : Option Stats := none
deriving DecidableEq

/-- Python truthiness of the `output_line` dictionary: empty iff no key
is present. -/
def Record.isEmpty (r : Record) : Bool :=
  r.commit.isNone && r.merge.isNone && r.author.isNone && r.author_email.isNone &&
  r.date.isNone && r.commit_by_date.isNone && r.commit_by.isNone &&
  r.commit_by_email.isNone && r.message.isNone && r.stats.isNone

/-- The Python exceptions the parse loop can raise. -/
inductive PyErr where
  /-- `line_list[1]` or `values[1]` on a too-short list. -/
  | indexError
  /-- `output_line['stats']['files']` when no `stats` key exists. -/
  | keyError
  /-- `files`/`insertions`/`deletions` read before any assignment. -/
  | unboundLocal
deriving DecidableEq

/-- The captured texts of the three regex groups, kept as the values of
the Python locals `files`, `insertions`, `deletions`. -/
def Vars := String × String × Option String
deriving instance DecidableEq for Vars

/-- The state of the `parse` loop: the emitted records, the in-progress
record, the two transient buffers, and the function-level locals
`files`/`insertions`/`deletions` (one optional triple: they are either
all unassigned or were all assigned by the last matching summary line,
possibly of an earlier record). -/
structure PState where
  raw_output : List Record := []
  output_line : Record := {}
  message_lines : List String := []
  file_list : List String := []
  changes_vars : Option Vars := none
deriving DecidableEq

/-- The semantic role a line receives from the guard chain of the parse
loop (git_log.py lines 238-319), in source order: the first guard that
accepts the line wins. -/
inductive Role where
  | record_boundary_oneline
  | record_boundary_commit
  | merge_parents
  | author
  | date
  | author_date
  | commit_date
  | committer
  | message_body
  | file_name
  | change_summary
  | unrecognized
deriving DecidableEq

/-- The line classifier: the guard chain of the parse loop, in source
order.  A line beginning with something other than a space whose first
token is a 40-character lowercase-hex hash is a oneline boundary; a line
beginning with `commit ` is a full-style boundary; then the fixed field
prefixes; then lines beginning with four spaces (message body), then
lines beginning with a space (file name, unless they contain
`changed, `, which makes them a change summary); everything else is
ignored. -/
def classify (line : String) : Role :=
  if !pyStartsWith line " " && !(splitMax1 line).isEmpty &&
      _is_commit_hash ((splitMax1 line).headD "") then .record_boundary_oneline
  else if pyStartsWith line "commit " then .record_boundary_commit
  else if pyStartsWith line "Merge: " then .merge_parents
  else if pyStartsWith line "Author: " then .author
  else if pyStartsWith line "Date: " then .date
  else if pyStartsWith line "AuthorDate: " then .author_date
  else if pyStartsWith line "CommitDate: " then .commit_date
  else if pyStartsWith line "Commit: " then .committer
  else if pyStartsWith line "    " then .message_body
  else if pyStartsWith line " " && !pyContains line "changed, " then .file_name
  else if pyStartsWith line " " && pyContains line "changed, " then .change_summary
  else .unrecognized

/-- The `stats` dictionary built by the change-summary branch from the
current values of the three locals:
`{'files_changed': files or '0', 'insertions': insertions or '0',
'deletions': deletions or '0'}`. -/
def statsFromVars (v : Vars) : Stats :=
  { files_changed := pyOr v.1 "0"
    insertions := pyOr v.2.1 "0"
    deletions := match v.2.2 with
      | none => "0"
      | some dv => pyOr dv "0"
    files := none }

/-- `if file_list: output_line['stats']['files'] = file_list` — attach
the pending file list to the stats dictionary; raises KeyError when the
record has no `stats` key. -/
def flushFiles (r : Record) (file_list : List String) : Except PyErr Record :=
  if file_list.isEmpty then .ok r
  else match r.stats with
    | none => .error .keyError
    | some st => .ok { r with stats := some { st with files := some file_list } }

/-- Finalize the in-progress record the way the `commit ` boundary and
the end-of-input block do: join pending message lines if any, then
attach the pending file list if any. -/
def finalizeRecord (s : PState) : Except PyErr Record :=
  flushFiles
    (if s.message_lines.isEmpty then s.output_line
     else { s.output_line with message := some (String.intercalate "\n" s.message_lines) })
    s.file_list

/-- The flush performed by the `commit ` boundary branch: if a record is
open, finalize it (message join and file attach), emit it and reset the
transient buffers. -/
def flushFull (s : PState) : Except PyErr PState :=
  if s.output_line.isEmpty then .ok s
  else match finalizeRecord s with
    | .error e => .error e
    | .ok r => .ok { s with raw_output := s.raw_output ++ [r],
                            output_line := {}, message_lines := [], file_list := [] }

/-- The flush performed by the oneline boundary branch: if a record is
open, attach the pending file list (the pending message lines are reset
without being joined) and emit it. -/
def flushOneline (s : PState) : Except PyErr PState :=
  if s.output_line.isEmpty then .ok s
  else match flushFiles s.output_line s.file_list with
    | .error e => .error e
    | .ok r => .ok { s with raw_output := s.raw_output ++ [r],
                            output_line := {}, message_lines := [], file_list := [] }

/-- One iteration of the parse loop body on one line (git_log.py lines
234-319).  The branch bodies are translated from the source branch by
branch; the guard chain is `classify`. -/
def step (s : PState) (line : String) : Except PyErr PState :=
  match classify line with
  | .record_boundary_oneline =>
      match flushOneline s with
      | .error e => .error e
      | .ok s' =>
          match splitMax1 line with
          | [c, m] => .ok { s' with output_line := { commit := some c, message := some m } }
          | _ => .error .indexError
  | .record_boundary_commit =>
      match flushFull s with
      | .error e => .error e
      | .ok s' =>
          match splitMax1 line with
          | [_, v] => .ok { s' with output_line := { s'.output_line with commit := some v } }
          | _ => .error .indexError
  | .merge_parents =>
      match splitMax1 line with
      | [_, v] => .ok { s with output_line := { s.output_line with merge := some v } }
      | _ => .error .indexError
  | .author =>
      match splitMax1 line with
      | [_, v] =>
          match rsplitMax1 v with
          | [a, e] => .ok { s with output_line := { s.output_line with
              author := some a, author_email := some (stripAngles e) } }
          | _ => .error .indexError
      | _ => .error .indexError
  | .date =>
      match splitMax1 line with
      | [_, v] => .ok { s with output_line := { s.output_line with date := some v } }
      | _ => .error .indexError
  | .author_date =>
      match splitMax1 line with
      | [_, v] => .ok { s with output_line := { s.output_line with date := some v } }
      | _ => .error .indexError
  | .commit_date =>
      match splitMax1 line with
      | [_, v] => .ok { s with output_line := { s.output_line with commit_by_date := some v } }
      | _ => .error .indexError
  | .committer =>
      match splitMax1 line with
      | [_, v] =>
          match rsplitMax1 v with
          | [a, e] => .ok { s with output_line := { s.output_line with
              commit_by := some a, commit_by_email := some (stripAngles e) } }
          | _ => .error .indexError
      | _ => .error .indexError
  | .message_body =>
      .ok { s with message_lines := s.message_lines ++ [pyStrip line] }
  | .file_name =>
      .ok { s with file_list := s.file_list ++ [fileNameOf line] }
  | .change_summary =>
      let vars := match changes_pattern_match line with
        | some v => some v
        | none => s.changes_vars
      match vars with
      | none => .error .unboundLocal
      | some v =>
          .ok { s with changes_vars := some v,
                       output_line := { s.output_line with stats := some (statsFromVars v) } }
  | .unrecognized => .ok s

/-- The initial loop state. -/
def initState : PState := {}

/-- Run the parse loop over a list of lines. -/
def runLines (s : PState) : List String → Except PyErr PState
  | [] => .ok s
  | l :: ls =>
      match step s l with
      | .error e => .error e
      | .ok s' => runLines s' ls

/-- The end-of-input block of `parse` (git_log.py lines 321-328): if a
record is still open, finalize and emit it. -/
def finishFlush (s : PState) : Except PyErr (List Record) :=
  if s.output_line.isEmpty then .ok s.raw_output
  else match finalizeRecord s with
    | .error e => .error e
    | .ok r => .ok (s.raw_output ++ [r])

/-- The batch engine on an already-split line list: run the loop, then
the final flush. -/
def parseLines (lines : List String) : Except PyErr (List Record) :=
  match runLines initState lines with
  | .error e => .error e
  | .ok s => finishFlush s

/-- `parse` from git_log.py on the raw input string, producing the raw
record list (the `raw=True` output).  The post-processing `_process`
(timestamp enrichment and numeric coercion) is the external
collaborator of spec section 6 and is outside the engine. -/
def parse (data : String) : Except PyErr (List Record) :=
  if hasData data then parseLines (splitLines data) else .ok []

/-- A line on which the loop opens a new record: either kind of record
boundary. -/
def isBoundaryLine (line : String) : Bool :=
  match classify line with
  | .record_boundary_oneline => true
  | .record_boundary_commit => true
  | _ => false

/-- The number of record-boundary lines in an input. -/
def countBoundaries (lines : List String) : Nat :=
  (lines.filter isBoundaryLine).length

/-- Counting invariant of the parse loop: if no record is open, nothing
has been emitted and no boundary has been seen; if a record is open, the
number of emitted records is one less than the number of boundaries seen
so far (the open record was opened by the last boundary) or exactly that
number (the open record was opened by a field line preceding any
boundary). -/
def RecInv (s : PState) (b : Nat) : Prop :=
  (s.output_line.isEmpty = true → s.raw_output = [] ∧ b = 0) ∧
  (s.output_line.isEmpty = false → s.raw_output.length + 1 = b ∨ s.raw_output.length = b)

/-- Re-basing of a loop state: the same transient state over a longer
emitted prefix and with possibly different regex locals.  Used to relate
a run of the tail input alone with the same run inside a concatenated
input. -/
def addPre (pre : List Record) (cv : Option Vars) (x : PState) : PState :=
  { x with raw_output := pre ++ x.raw_output, changes_vars := cv }

end GitLog

namespace FooS

/-- One item yielded by the streaming driver: either the payload of a
successfully processed line (with `marker` true iff the
`_meta: success true` object was attached, i.e. iff `quiet` was set), or
a failure descriptor carrying the error message and the raw offending
line. -/
inductive ParseUnit (α : Type) where
  | success (payload : α) (marker : Bool)
  | failure (error_msg : String) (line : String)
deriving DecidableEq

/-- Modelled from the spec: `jc.utils.stream_error` is not under `src/`
(only its caller in foo_s.py is).  Per spec section 4.5, on failure the
driver produces "a unit tagged as failed, carrying: the failure
description, and the raw offending line text", and the suppression flag
"never changes whether failures are swallowed — failures are always
visible in the unit itself, never thrown across the stream boundary";
so the unit is built from the description and the line and the flag is
ignored. -/
def stream_error {α : Type} (e : String) (_quiet : Bool) (line : String) : ParseUnit α :=
  .failure e line

/-- `_process` from foo_s.py: returns its argument unchanged. -/
def _process {α : Type} (proc_data : α) : α :=
  proc_data

/-- The body of the `for` loop of `parse` in foo_s.py for one line.
`lineParse` stands for the per-line parsing code elided by the template
comment `# parse the input here` (modelled from the spec as an arbitrary
fallible computation); an exception anywhere in the `try` block is
caught and turned into `stream_error`. -/
def unitOf {α : Type} (lineParse : String → Except String α)
    (raw quiet : Bool) (line : String) : ParseUnit α :=
  match lineParse line with
  | .error e => stream_error e quiet line
  | .ok d =>
      if raw then .success d quiet
      else .success (_process d) quiet

/-- `parse` from foo_s.py: the generator yields exactly one unit per
input line. -/
def parse {α : Type} (lineParse : String → Except String α)
    (raw quiet : Bool) (lines : List String) : List (ParseUnit α) :=
  lines.map (unitOf lineParse raw quiet)

end FooS

/- ### Theorems -/

namespace GitLog

/- ### Helper lemmas -/

theorem mk_ne_empty {cs : List Char} (h : cs ≠ []) : String.mk cs ≠ "" := by
  intro hc
  exact h (by simpa using congrArg String.data hc)

theorem takeDigits1_ne_nil {cs ds rest : List Char}
    (h : takeDigits1 cs = some (ds, rest)) : ds ≠ [] := by
  unfold takeDigits1 at h
  by_cases hd : (cs.takeWhile isDigitChar).isEmpty
  · simp [hd] at h
  · simp only [hd, Bool.false_eq_true, if_false, Option.some.injEq, Prod.mk.injEq] at h
    intro hnil
    rw [h.1, hnil] at hd
    simp at hd

/-- The group texts returned by a successful `changes_pattern_match` are
never empty: `files` and `insertions` are nonempty digit runs, and the
`deletions` group, when it participated, is a nonempty digit run. -/
theorem changes_groups_ne_empty {line : String} {f i : String} {d : Option String}
    (h : changes_pattern_match line = some (f, i, d)) :
    f ≠ "" ∧ i ≠ "" ∧ ∀ dv, d = some dv → dv ≠ "" := by
  unfold changes_pattern_match at h
  simp only [bind, Option.bind_eq_some] at h
  obtain ⟨cs1, h1, h⟩ := h
  obtain ⟨⟨fds, cs2⟩, h2, h⟩ := h
  obtain ⟨cs3, h3, h⟩ := h
  obtain ⟨cs4, h4, h⟩ := h
  obtain ⟨cs6, h6, h⟩ := h
  obtain ⟨cs7, h7, h⟩ := h
  obtain ⟨cs8, h8, h⟩ := h
  obtain ⟨⟨ids, cs9⟩, h9, h⟩ := h
  obtain ⟨cs10, h10, h⟩ := h
  simp only [pure, Option.some.injEq, Prod.mk.injEq] at h
  obtain ⟨hf, hi, hd⟩ := h
  refine ⟨hf ▸ mk_ne_empty (takeDigits1_ne_nil h2), hi ▸ mk_ne_empty (takeDigits1_ne_nil h9), ?_⟩
  intro dv hdv
  subst hd
  split at hdv
  · rename_i dds rest hdig
    cases Option.some.inj hdv
    exact mk_ne_empty (takeDigits1_ne_nil hdig)
  · exact absurd hdv (by simp)

end GitLog
namespace GitLog

/-- The change-summary branch on a line the pattern matches: the three
locals are (re)assigned and a fresh stats dictionary wholly replaces any
previous one; the buffers are untouched. -/
theorem step_change_summary (s : PState) (line : String) (v : Vars)
    (hc : classify line = Role.change_summary)
    (hm : changes_pattern_match line = some v) :
    step s line = .ok { s with
      changes_vars := some v,
      output_line := { s.output_line with stats := some (statsFromVars v) } } := by
  unfold step
  rw [hc]
  simp [hm]

/-- The change-summary branch on a line the pattern does not match:
the stale locals are used if assigned, otherwise the branch raises. -/
theorem step_change_summary_fail (s : PState) (line : String)
    (hc : classify line = Role.change_summary)
    (hm : changes_pattern_match line = none) :
    step s line = (match s.changes_vars with
      | none => .error .unboundLocal
      | some v => .ok { s with
          changes_vars := some v,
          output_line := { s.output_line with stats := some (statsFromVars v) } }) := by
  unfold step
  rw [hc]
  simp only [hm]
  rfl

end GitLog
namespace GitLog

/-- The `commit ` boundary on an open record: the record is finalized
(message joined, files attached), emitted, the buffers are reset, and a
new record holding only the identifier is opened.  The regex locals
survive the boundary. -/
theorem step_commit_boundary (s : PState) (line t v : String) (r : Record)
    (hc : classify line = Role.record_boundary_commit)
    (hsp : splitMax1 line = [t, v])
    (hne : s.output_line.isEmpty = false)
    (hfin : finalizeRecord s = .ok r) :
    step s line = .ok { raw_output := s.raw_output ++ [r],
                        output_line := { commit := some v },
                        message_lines := [], file_list := [],
                        changes_vars := s.changes_vars } := by
  unfold step flushFull
  rw [hc, hne, hfin, hsp]
  rfl

/-- The `commit ` boundary with no open record: nothing is flushed and
the transient buffers are NOT reset. -/
theorem step_commit_boundary_empty (s : PState) (line t v : String)
    (hc : classify line = Role.record_boundary_commit)
    (hsp : splitMax1 line = [t, v])
    (hemp : s.output_line.isEmpty = true) :
    step s line = .ok { s with output_line := { s.output_line with commit := some v } } := by
  unfold step flushFull
  rw [hc, hemp, hsp]
  rfl

/-- The oneline boundary on an open record: the record is emitted after
attaching the pending file list, but the pending message lines are
discarded (reset without being joined); the new record holds the hash
and the remainder of the line as message. -/
theorem step_oneline_boundary (s : PState) (line c m : String) (r : Record)
    (hc : classify line = Role.record_boundary_oneline)
    (hsp : splitMax1 line = [c, m])
    (hne : s.output_line.isEmpty = false)
    (hfl : flushFiles s.output_line s.file_list = .ok r) :
    step s line = .ok { raw_output := s.raw_output ++ [r],
                        output_line := { commit := some c, message := some m },
                        message_lines := [], file_list := [],
                        changes_vars := s.changes_vars } := by
  unfold step flushOneline
  rw [hc, hne, hfl, hsp]
  rfl

/-- A message-body line appends its fully stripped text to the pending
message buffer. -/
theorem step_message_body (s : PState) (line : String)
    (hc : classify line = Role.message_body) :
    step s line = .ok { s with message_lines := s.message_lines ++ [pyStrip line] } := by
  unfold step
  rw [hc]

/-- A file-name line appends the stripped text before the first `|` to
the pending file buffer. -/
theorem step_file_name (s : PState) (line : String)
    (hc : classify line = Role.file_name) :
    step s line = .ok { s with file_list := s.file_list ++ [fileNameOf line] } := by
  unfold step
  rw [hc]

/-- Attaching the file list never changes the `message` field. -/
theorem flushFiles_message {r r' : Record} {fl : List String}
    (h : flushFiles r fl = .ok r') : r'.message = r.message := by
  unfold flushFiles at h
  split at h
  · cases h
    rfl
  · split at h
    · cases h
    · cases h
      rfl

/-- Attaching the file list to a record whose stats are present: the
resulting stats keep the counts and gain the file list when it is
nonempty. -/
theorem flushFiles_stats {r r' : Record} {fl : List String} {st : Stats}
    (h : flushFiles r fl = .ok r') (hst : r.stats = some st) :
    r'.stats = some { st with files := if fl.isEmpty then st.files else some fl } := by
  unfold flushFiles at h
  split at h
  · rename_i hfl
    cases h
    rw [hst, hfl]
    simp
  · rename_i hfl
    rw [hst] at h
    cases h
    simp [hfl]

/-- When message lines are pending, the finalized record's message is
their newline join. -/
theorem finalizeRecord_message {s : PState} {r : Record}
    (h : finalizeRecord s = .ok r) (hm : s.message_lines ≠ []) :
    r.message = some (String.intercalate "\n" s.message_lines) := by
  unfold finalizeRecord at h
  rw [if_neg (by simpa using hm)] at h
  rw [flushFiles_message h]

end GitLog
namespace GitLog

/-- If the in-progress record carries a stats dictionary, the final
flush succeeds and attaches the pending file list (when nonempty) to
that dictionary. -/
theorem flushFiles_ok_of_stats {r0 : Record} {fl : List String} {st : Stats}
    (h0 : r0.stats = some st) :
    ∃ r, flushFiles r0 fl = .ok r ∧
      r.stats = some { st with files := if fl.isEmpty then st.files else some fl } := by
  unfold flushFiles
  by_cases hfl : fl.isEmpty
  · rw [if_pos hfl, if_pos hfl]
    refine ⟨r0, rfl, ?_⟩
    rw [h0]
  · rw [if_neg hfl, if_neg hfl]
    rw [h0]
    exact ⟨_, rfl, rfl⟩

theorem finalizeRecord_stats {s : PState} {st : Stats}
    (hst : s.output_line.stats = some st) :
    ∃ r, finalizeRecord s = .ok r ∧
      r.stats = some { st with files := if s.file_list.isEmpty then st.files else some s.file_list } := by
  unfold finalizeRecord
  apply flushFiles_ok_of_stats
  split
  · exact hst
  · exact hst

/-- C1: the batch `parse` is claimed never to raise for malformed
content; but a change-summary line failing the stats pattern with no
earlier matching line raises UnboundLocalError (the locals are read
outside the `if changes:` guard), and the final flush of a pending
file-name list for a record with no stats raises KeyError at
`output_line['stats']['files']`. -/
theorem C1_batch_raises :
    parse " changed, x" = .error .unboundLocal ∧
    parse "commit abc\n file.py" = .error .keyError := ⟨rfl, rfl⟩

/-- C3: a change-summary line failing the pattern is claimed to be
silently skipped with no Stats attached; instead the branch
unconditionally attaches a stats dictionary built from the locals left
over from the previous matching line (here the first record's counts end
up on the second record), and raises when no such line exists. -/
theorem C3_stale_stats :
    parseLines ["commit abc", " 1 file changed, 2 insertions(+)", "commit def", " changed, x"] =
      .ok [{ commit := some "abc",
             stats := some { files_changed := "1", insertions := "2", deletions := "0" } },
           { commit := some "def",
             stats := some { files_changed := "1", insertions := "2", deletions := "0" } }] ∧
    changes_pattern_match " changed, x" = none ∧
    parseLines ["commit def", " changed, x"] = .error .unboundLocal := ⟨rfl, rfl, rfl⟩

/-- C4 counterexample: on the real git summary line
` 1 file changed, 2 deletions(-)` (no insertions clause, deletions
count 2) the claim requires `insertions = "0"` and `deletions = "2"`,
but the pattern captures the count after `changed,` as `insertions`
unconditionally, giving `insertions = "2"` and `deletions = "0"`. -/
theorem C4_counterexample :
    parseLines ["commit abc", " 1 file changed, 2 deletions(-)"] =
      .ok [{ commit := some "abc",
             stats := some { files_changed := "1", insertions := "2", deletions := "0" } }] ∧
    changes_pattern_match " 1 file changed, 2 deletions(-)" = some ("1", "2", none) ∧
    ("2" : String) ≠ "0" := ⟨rfl, rfl, by decide⟩

/-- C4 amended: for every change-summary line matched by the extractor,
the captured group texts are attached verbatim (the `or "0"` defaults
never fire for `files` and `insertions`, which are nonempty digit runs —
the count following `changed,` is always captured as `insertions`,
whichever unit word follows it), and `deletions` is the string "0"
exactly when the optional trailing digit group did not participate. -/
theorem C4_amended_thm (s : PState) (line : String) (f i : String) (d : Option String)
    (hc : classify line = Role.change_summary)
    (hm : changes_pattern_match line = some (f, i, d)) :
    step s line = .ok { s with
      changes_vars := some (f, i, d),
      output_line := { s.output_line with
        stats := some { files_changed := f, insertions := i,
                        deletions := d.getD "0", files := none } } } := by
  obtain ⟨hf, hi, hd⟩ := changes_groups_ne_empty hm
  have hst : statsFromVars (f, i, d) =
      { files_changed := f, insertions := i, deletions := d.getD "0", files := none } := by
    cases d with
    | none => simp [statsFromVars, pyOr, hf, hi]
    | some dv => simp [statsFromVars, pyOr, hf, hi, hd dv rfl]
  rw [step_change_summary s line (f, i, d) hc hm, hst]

/-- Witness for C4: the deletions-only line of the counterexample,
instantiating the amended theorem. -/
theorem C4_amended_witness :
    classify " 1 file changed, 2 deletions(-)" = Role.change_summary ∧
    changes_pattern_match " 1 file changed, 2 deletions(-)" = some ("1", "2", none) ∧
    step initState " 1 file changed, 2 deletions(-)" = .ok { initState with
      changes_vars := some ("1", "2", none),
      output_line := { initState.output_line with
        stats := some { files_changed := "1", insertions := "2",
                        deletions := "0", files := none } } } :=
  ⟨rfl, rfl, C4_amended_thm initState " 1 file changed, 2 deletions(-)" "1" "2" none rfl rfl⟩

/-- C5 counterexample: at a oneline boundary the open record is emitted
WITHOUT its pending message lines being joined (first parse below: the
pending `hello` line is silently dropped), although the same prefix
flushed at end of input does join them (second parse). -/
theorem C5_counterexample :
    parseLines ["commit abc", "    hello",
                "0123456789abcdef0123456789abcdef01234567 msg"] =
      .ok [{ commit := some "abc" },
           { commit := some "0123456789abcdef0123456789abcdef01234567",
             message := some "msg" }] ∧
    parseLines ["commit abc", "    hello"] =
      .ok [{ commit := some "abc", message := some "hello" }] ∧
    (none : Option String) ≠ some "hello" := ⟨rfl, rfl, by decide⟩

/-- C5 amended: on a `commit ` boundary an open record is finalized with
pending message lines joined and the pending file list attached, the
buffers are reset, and the new record is opened; on a ONELINE boundary
the open record is emitted with only the file list attached — the
pending message lines are reset without being joined. -/
theorem C5_amended_thm :
    (∀ (s : PState) (line t v : String) (r : Record),
      classify line = Role.record_boundary_commit →
      splitMax1 line = [t, v] →
      s.output_line.isEmpty = false →
      finalizeRecord s = .ok r →
      step s line = .ok { raw_output := s.raw_output ++ [r],
                          output_line := { commit := some v },
                          message_lines := [], file_list := [],
                          changes_vars := s.changes_vars }) ∧
    (∀ (s : PState) (line c m : String) (r : Record),
      classify line = Role.record_boundary_oneline →
      splitMax1 line = [c, m] →
      s.output_line.isEmpty = false →
      flushFiles s.output_line s.file_list = .ok r →
      step s line = .ok { raw_output := s.raw_output ++ [r],
                          output_line := { commit := some c, message := some m },
                          message_lines := [], file_list := [],
                          changes_vars := s.changes_vars }) :=
  ⟨step_commit_boundary, step_oneline_boundary⟩

/-- Witness for C5: a state with an open record and a pending message
line, hit by each kind of boundary.  The `commit ` boundary emits the
record with the message joined; the oneline boundary emits it without a
message. -/
theorem C5_amended_witness :
    step { raw_output := [], output_line := { commit := some "abc" },
           message_lines := ["hello"], file_list := [], changes_vars := none }
        "commit def" =
      .ok { raw_output := [{ commit := some "abc", message := some "hello" }],
            output_line := { commit := some "def" },
            message_lines := [], file_list := [], changes_vars := none } ∧
    step { raw_output := [], output_line := { commit := some "abc" },
           message_lines := ["hello"], file_list := [], changes_vars := none }
        "0123456789abcdef0123456789abcdef01234567 msg" =
      .ok { raw_output := [{ commit := some "abc" }],
            output_line := { commit := some "0123456789abcdef0123456789abcdef01234567",
                             message := some "msg" },
            message_lines := [], file_list := [], changes_vars := none } :=
  ⟨C5_amended_thm.1 _ "commit def" "commit" "def"
      { commit := some "abc", message := some "hello" } rfl rfl rfl rfl,
   C5_amended_thm.2 _ "0123456789abcdef0123456789abcdef01234567 msg"
      "0123456789abcdef0123456789abcdef01234567" "msg"
      { commit := some "abc" } rfl rfl rfl rfl⟩

/-- C8 counterexample: the claim requires a message line to lose only
its four-space indentation, preserving any further whitespace; the code
strips ALL surrounding whitespace, so `    hello ` becomes `hello`, not
`hello `. -/
theorem C8_counterexample :
    parseLines ["commit abc", "    hello "] =
      .ok [{ commit := some "abc", message := some "hello" }] ∧
    ("hello" : String) ≠ "hello " := ⟨rfl, by decide⟩

/-- C8 amended: a record's message is assembled by joining the pending
message lines with newline separators in encounter order, each line
having been stripped of ALL leading and trailing whitespace (Python
`line.strip()`), not merely of the four-space indent. -/
theorem C8_amended_thm :
    (∀ (s : PState) (line : String), classify line = Role.message_body →
      step s line = .ok { s with message_lines := s.message_lines ++ [pyStrip line] }) ∧
    (∀ (s : PState) (r : Record), s.message_lines ≠ [] → finalizeRecord s = .ok r →
      r.message = some (String.intercalate "\n" s.message_lines)) :=
  ⟨step_message_body, fun _ _ hm h => finalizeRecord_message h hm⟩

/-- Witness for C8: a concrete message line with inner indentation and a
trailing blank, and a concrete two-line join. -/
theorem C8_amended_witness :
    step initState "     hello " = .ok { initState with message_lines := ["hello"] } ∧
    finalizeRecord { raw_output := [], output_line := { commit := some "x" },
                     message_lines := ["a", "b"], file_list := [], changes_vars := none } =
      .ok { commit := some "x", message := some "a\nb" } ∧
    ({ commit := some "x", message := some "a\nb" } : Record).message = some "a\nb" :=
  ⟨C8_amended_thm.1 initState "     hello " rfl, rfl,
   C8_amended_thm.2
     { raw_output := [], output_line := { commit := some "x" },
       message_lines := ["a", "b"], file_list := [], changes_vars := none }
     { commit := some "x", message := some "a\nb" } (by decide) rfl⟩

/-- C10: when two change-summary lines matching the pattern occur for
the same record, the second stats dictionary wholly replaces the first
(the surviving counts are those of the last line), and the pending file
list is attached to that surviving dictionary at flush time. -/
theorem C10_thm (s : PState) (l1 l2 : String) (v1 v2 : Vars)
    (hc1 : classify l1 = Role.change_summary)
    (hm1 : changes_pattern_match l1 = some v1)
    (hc2 : classify l2 = Role.change_summary)
    (hm2 : changes_pattern_match l2 = some v2) :
    ∃ s1 s2, step s l1 = .ok s1 ∧ step s1 l2 = .ok s2 ∧
      s2.output_line.stats = some (statsFromVars v2) ∧
      s2.file_list = s.file_list ∧ s2.message_lines = s.message_lines ∧
      ∃ r, finalizeRecord s2 = .ok r ∧
        r.stats = some { statsFromVars v2 with
          files := if s.file_list.isEmpty then none else some s.file_list } := by
  refine ⟨_, _, step_change_summary s l1 v1 hc1 hm1,
    step_change_summary _ l2 v2 hc2 hm2, rfl, rfl, rfl, ?_⟩
  have hstat : ({ s with
        changes_vars := some v2,
        output_line := { s.output_line with stats := some (statsFromVars v2) } } :
      PState).output_line.stats = some (statsFromVars v2) := rfl
  obtain ⟨r, hr, hrs⟩ := finalizeRecord_stats hstat
  exact ⟨r, hr, hrs⟩

end GitLog
namespace GitLog

/-- Witness for C10: two matching summary lines over an open record with
one pending file; the surviving stats are the second line's counts with
the file attached at flush. -/
theorem C10_witness :
    classify " 1 file changed, 2 insertions(+)" = Role.change_summary ∧
    changes_pattern_match " 1 file changed, 2 insertions(+)" = some ("1", "2", none) ∧
    classify " 3 files changed, 4 insertions(+), 5 deletions(-)" = Role.change_summary ∧
    changes_pattern_match " 3 files changed, 4 insertions(+), 5 deletions(-)" =
      some ("3", "4", some "5") ∧
    (∃ s1 s2,
      step { raw_output := [], output_line := { commit := some "x" },
             message_lines := [], file_list := ["a.py"], changes_vars := none }
          " 1 file changed, 2 insertions(+)" = .ok s1 ∧
      step s1 " 3 files changed, 4 insertions(+), 5 deletions(-)" = .ok s2 ∧
      s2.output_line.stats = some (statsFromVars ("3", "4", some "5")) ∧
      s2.file_list = ["a.py"] ∧ s2.message_lines = [] ∧
      ∃ r, finalizeRecord s2 = .ok r ∧
        r.stats = some { statsFromVars ("3", "4", some "5") with
          files := if ["a.py"].isEmpty then none else some ["a.py"] }) :=
  ⟨rfl, rfl, rfl, rfl,
   C10_thm { raw_output := [], output_line := { commit := some "x" },
             message_lines := [], file_list := ["a.py"], changes_vars := none }
     " 1 file changed, 2 insertions(+)" " 3 files changed, 4 insertions(+), 5 deletions(-)"
     ("1", "2", none) ("3", "4", some "5") rfl rfl rfl rfl⟩

end GitLog

namespace FooS

/-- C2: the streaming driver yields exactly one unit per input line
(the run is a total map over the lines, so no exception crosses the
stream boundary); a line whose processing fails yields, for either
value of the suppression flag, a failed unit carrying the error
description and the raw line; and on a successfully processed line the
flag changes only the success marker of the unit, not its payload. -/
theorem C2_stream_units {α : Type} (p : String → Except String α)
    (raw : Bool) (lines : List String) :
    (∀ q : Bool, (FooS.parse p raw q lines).length = lines.length) ∧
    (∀ q : Bool, FooS.parse p raw q lines = lines.map (FooS.unitOf p raw q)) ∧
    (∀ line e, p line = .error e → ∀ q : Bool,
      FooS.unitOf p raw q line = ParseUnit.failure e line) ∧
    (∀ line d, p line = .ok d → ∃ payload, ∀ q : Bool,
      FooS.unitOf p raw q line = ParseUnit.success payload q) := by
  refine ⟨fun q => ?_, fun q => rfl, fun line e he q => ?_, fun line d hd => ?_⟩
  · simp [FooS.parse]
  · simp [FooS.unitOf, he, FooS.stream_error]
  · refine ⟨if raw then d else FooS._process d, fun q => ?_⟩
    cases raw with
    | true => simp [FooS.unitOf, hd]
    | false => simp [FooS.unitOf, hd]

/-- Witness for C2: a concrete two-line stream with one failing line. -/
theorem C2_stream_units_witness :
    ((fun l => if l = "bad" then Except.error "boom" else Except.ok 7) "bad"
      = Except.error "boom") ∧
    ((fun l => if l = "bad" then Except.error "boom" else Except.ok 7) "good"
      = Except.ok 7) ∧
    (FooS.parse (fun l => if l = "bad" then Except.error "boom" else Except.ok 7)
      false true ["good", "bad"]).length = 2 ∧
    (∀ q : Bool, FooS.unitOf (fun l => if l = "bad" then Except.error "boom" else Except.ok 7)
      false q "bad" = ParseUnit.failure "boom" "bad") ∧
    (∃ payload, ∀ q : Bool,
      FooS.unitOf (fun l => if l = "bad" then Except.error "boom" else Except.ok 7)
        false q "good" = ParseUnit.success payload q) :=
  ⟨rfl, rfl,
   (C2_stream_units (fun l => if l = "bad" then Except.error "boom" else Except.ok 7)
      false ["good", "bad"]).1 true,
   (C2_stream_units (fun l => if l = "bad" then Except.error "boom" else Except.ok 7)
      false ["good", "bad"]).2.2.1 "bad" "boom" rfl,
   (C2_stream_units (fun l => if l = "bad" then Except.error "boom" else Except.ok 7)
      false ["good", "bad"]).2.2.2 "good" 7 rfl⟩

end FooS
namespace GitLog

/-- C6 counterexample: the line `     a` (five leading spaces) begins
with whitespace, its leading space run has length 5 (not 4), and it does
not contain `changed, `, so the claim assigns it FileName; the
classifier assigns MessageBody (the guard is `startswith('    ')`, i.e.
at least four spaces).  The line `\ta` begins with whitespace (a tab),
so the claim assigns it FileName; the code only treats a leading space
character as whitespace and ignores the line entirely. -/
theorem C6_counterexample :
    classify "     a" = Role.message_body ∧
    Role.message_body ≠ Role.file_name ∧
    ("     a".toList.takeWhile (fun c => c == ' ')).length = 5 ∧
    pyContains "     a" "changed, " = false ∧
    Char.isWhitespace '\t' = true ∧
    pyStartsWith "\ta" " " = false ∧
    pyContains "\ta" "changed, " = false ∧
    classify "\ta" = Role.unrecognized ∧
    Role.unrecognized ≠ Role.file_name :=
  ⟨rfl, by decide, by decide, rfl, by decide, rfl, rfl, rfl, by decide⟩

/-- C6 amended: for every line beginning with a space character, the
classifier assigns MessageBody exactly when the line begins with at
least four spaces; otherwise it assigns ChangeSummary when the line
contains the literal substring `changed, `, and FileName when it does
not.  (Lines whose leading whitespace is not a space character do not
reach these roles.) -/
theorem C6_amended_thm (line : String) (h : pyStartsWith line " " = true) :
    classify line =
      (if pyStartsWith line "    " = true then Role.message_body
       else if pyContains line "changed, " = true then Role.change_summary
       else Role.file_name) := by
  obtain ⟨rest, hl⟩ : ∃ rest, line.toList = ' ' :: rest := by
    unfold pyStartsWith at h
    cases hl : line.toList with
    | nil => rw [hl] at h; simp [List.isPrefixOf] at h
    | cons c cs =>
        rw [hl] at h
        have hc : ' ' = c := by simpa [List.isPrefixOf] using h
        exact ⟨cs, by rw [hc]⟩
  have g2 : pyStartsWith line "commit " = false := by unfold pyStartsWith; rw [hl]; rfl
  have g3 : pyStartsWith line "Merge: " = false := by unfold pyStartsWith; rw [hl]; rfl
  have g4 : pyStartsWith line "Author: " = false := by unfold pyStartsWith; rw [hl]; rfl
  have g5 : pyStartsWith line "Date: " = false := by unfold pyStartsWith; rw [hl]; rfl
  have g6 : pyStartsWith line "AuthorDate: " = false := by unfold pyStartsWith; rw [hl]; rfl
  have g7 : pyStartsWith line "CommitDate: " = false := by unfold pyStartsWith; rw [hl]; rfl
  have g8 : pyStartsWith line "Commit: " = false := by unfold pyStartsWith; rw [hl]; rfl
  unfold classify
  rw [h, g2, g3, g4, g5, g6, g7, g8]
  by_cases h4 : pyStartsWith line "    " = true
  · simp [h4]
  · by_cases hct : pyContains line "changed, " = true
    · simp [h4, hct]
    · simp [h4, hct]

/-- Witness for C6: a concrete file-name line beginning with one
space. -/
theorem C6_amended_witness :
    pyStartsWith " file.py" " " = true ∧
    classify " file.py" =
      (if pyStartsWith " file.py" "    " = true then Role.message_body
       else if pyContains " file.py" "changed, " = true then Role.change_summary
       else Role.file_name) :=
  ⟨rfl, C6_amended_thm " file.py" rfl⟩

end GitLog
namespace GitLog

/-- One loop step preserves the counting invariant, advancing the
boundary count exactly on boundary lines. -/
theorem step_inv {s s' : PState} {b : Nat} {line : String}
    (hstep : step s line = .ok s') (hinv : RecInv s b) :
    RecInv s' (b + (if isBoundaryLine line then 1 else 0)) := by
  obtain ⟨hclosed, hopen⟩ := hinv
  unfold step at hstep
  cases hc : classify line <;> rw [hc] at hstep <;> simp only [] at hstep
  case record_boundary_oneline =>
    rw [show isBoundaryLine line = true from by unfold isBoundaryLine; rw [hc], if_pos rfl]
    cases hflush : flushOneline s with
    | error e => rw [hflush] at hstep; simp at hstep
    | ok sf =>
        rw [hflush] at hstep
        simp only [] at hstep
        unfold flushOneline at hflush
        split at hstep
        · rename_i hsp
          cases hstep
          constructor
          · intro hemp
            simp [Record.isEmpty] at hemp
          · intro _
            by_cases hoe : s.output_line.isEmpty = true
            · rw [if_pos hoe] at hflush
              cases hflush
              obtain ⟨hraw, hb⟩ := hclosed hoe
              rw [hraw, hb]
              simp
            · rw [if_neg hoe] at hflush
              cases hff : flushFiles s.output_line s.file_list with
              | error e => rw [hff] at hflush; cases hflush
              | ok r =>
                  rw [hff] at hflush
                  cases hflush
                  rcases hopen (by simpa using hoe) with h1 | h1
                  · left
                    simp
                    omega
                  · right
                    simp
                    omega
        · cases hstep
  case record_boundary_commit =>
    rw [show isBoundaryLine line = true from by unfold isBoundaryLine; rw [hc], if_pos rfl]
    cases hflush : flushFull s with
    | error e => rw [hflush] at hstep; simp at hstep
    | ok sf =>
        rw [hflush] at hstep
        simp only [] at hstep
        unfold flushFull at hflush
        split at hstep
        · rename_i hsp
          cases hstep
          constructor
          · intro hemp
            simp [Record.isEmpty] at hemp
          · intro _
            by_cases hoe : s.output_line.isEmpty = true
            · rw [if_pos hoe] at hflush
              cases hflush
              obtain ⟨hraw, hb⟩ := hclosed hoe
              rw [hraw, hb]
              simp
            · rw [if_neg hoe] at hflush
              cases hff : finalizeRecord s with
              | error e => rw [hff] at hflush; cases hflush
              | ok r =>
                  rw [hff] at hflush
                  cases hflush
                  rcases hopen (by simpa using hoe) with h1 | h1
                  · left
                    simp
                    omega
                  · right
                    simp
                    omega
        · cases hstep
  case merge_parents =>
    rw [show isBoundaryLine line = false from by unfold isBoundaryLine; rw [hc],
      if_neg (by simp), Nat.add_zero]
    split at hstep
    · rename_i hsp
      cases hstep
      refine ⟨fun hemp => by simp [Record.isEmpty] at hemp, fun _ => ?_⟩
      by_cases hoe : s.output_line.isEmpty = true
      · obtain ⟨hraw, hb⟩ := hclosed hoe
        rw [hraw, hb]
        simp
      · exact hopen (by simpa using hoe)
    · cases hstep
  case author =>
    rw [show isBoundaryLine line = false from by unfold isBoundaryLine; rw [hc],
      if_neg (by simp), Nat.add_zero]
    split at hstep
    · rename_i hsp
      split at hstep
      · rename_i hrs
        cases hstep
        refine ⟨fun hemp => by simp [Record.isEmpty] at hemp, fun _ => ?_⟩
        by_cases hoe : s.output_line.isEmpty = true
        · obtain ⟨hraw, hb⟩ := hclosed hoe
          rw [hraw, hb]
          simp
        · exact hopen (by simpa using hoe)
      · cases hstep
    · cases hstep
  case date =>
    rw [show isBoundaryLine line = false from by unfold isBoundaryLine; rw [hc],
      if_neg (by simp), Nat.add_zero]
    split at hstep
    · rename_i hsp
      cases hstep
      refine ⟨fun hemp => by simp [Record.isEmpty] at hemp, fun _ => ?_⟩
      by_cases hoe : s.output_line.isEmpty = true
      · obtain ⟨hraw, hb⟩ := hclosed hoe
        rw [hraw, hb]
        simp
      · exact hopen (by simpa using hoe)
    · cases hstep
  case author_date =>
    rw [show isBoundaryLine line = false from by unfold isBoundaryLine; rw [hc],
      if_neg (by simp), Nat.add_zero]
    split at hstep
    · rename_i hsp
      cases hstep
      refine ⟨fun hemp => by simp [Record.isEmpty] at hemp, fun _ => ?_⟩
      by_cases hoe : s.output_line.isEmpty = true
      · obtain ⟨hraw, hb⟩ := hclosed hoe
        rw [hraw, hb]
        simp
      · exact hopen (by simpa using hoe)
    · cases hstep
  case commit_date =>
    rw [show isBoundaryLine line = false from by unfold isBoundaryLine; rw [hc],
      if_neg (by simp), Nat.add_zero]
    split at hstep
    · rename_i hsp
      cases hstep
      refine ⟨fun hemp => by simp [Record.isEmpty] at hemp, fun _ => ?_⟩
      by_cases hoe : s.output_line.isEmpty = true
      · obtain ⟨hraw, hb⟩ := hclosed hoe
        rw [hraw, hb]
        simp
      · exact hopen (by simpa using hoe)
    · cases hstep
  case committer =>
    rw [show isBoundaryLine line = false from by unfold isBoundaryLine; rw [hc],
      if_neg (by simp), Nat.add_zero]
    split at hstep
    · rename_i hsp
      split at hstep
      · rename_i hrs
        cases hstep
        refine ⟨fun hemp => by simp [Record.isEmpty] at hemp, fun _ => ?_⟩
        by_cases hoe : s.output_line.isEmpty = true
        · obtain ⟨hraw, hb⟩ := hclosed hoe
          rw [hraw, hb]
          simp
        · exact hopen (by simpa using hoe)
      · cases hstep
    · cases hstep
  case message_body =>
    rw [show isBoundaryLine line = false from by unfold isBoundaryLine; rw [hc],
      if_neg (by simp), Nat.add_zero]
    cases hstep
    exact ⟨hclosed, hopen⟩
  case file_name =>
    rw [show isBoundaryLine line = false from by unfold isBoundaryLine; rw [hc],
      if_neg (by simp), Nat.add_zero]
    cases hstep
    exact ⟨hclosed, hopen⟩
  case change_summary =>
    rw [show isBoundaryLine line = false from by unfold isBoundaryLine; rw [hc],
      if_neg (by simp), Nat.add_zero]
    split at hstep
    · cases hstep
    · rename_i v hv
      cases hstep
      refine ⟨fun hemp => by simp [Record.isEmpty] at hemp, fun _ => ?_⟩
      by_cases hoe : s.output_line.isEmpty = true
      · obtain ⟨hraw, hb⟩ := hclosed hoe
        rw [hraw, hb]
        simp
      · exact hopen (by simpa using hoe)
  case unrecognized =>
    rw [show isBoundaryLine line = false from by unfold isBoundaryLine; rw [hc],
      if_neg (by simp), Nat.add_zero]
    cases hstep
    exact ⟨hclosed, hopen⟩

end GitLog
namespace GitLog

/-- The whole loop preserves the counting invariant. -/
theorem run_inv (lines : List String) : ∀ {s s' : PState} {b : Nat},
    runLines s lines = .ok s' → RecInv s b → RecInv s' (b + countBoundaries lines) := by
  induction lines with
  | nil =>
      intro s s' b h hinv
      unfold runLines at h
      cases h
      simpa [countBoundaries] using hinv
  | cons l ls ih =>
      intro s s' b h hinv
      unfold runLines at h
      cases hstep : step s l with
      | error e => rw [hstep] at h; simp at h
      | ok s1 =>
          rw [hstep] at h
          simp only [] at h
          have h2 := ih h (step_inv hstep hinv)
          have hcb : countBoundaries (l :: ls) =
              (if isBoundaryLine l then 1 else 0) + countBoundaries ls := by
            unfold countBoundaries
            by_cases hb : isBoundaryLine l
            · simp [hb, List.filter_cons]
              omega
            · simp [hb, List.filter_cons]
          rw [hcb, ← Nat.add_assoc]
          exact h2

/-- C7 counterexample: a field line before any boundary opens a record,
so the input `Merge: abc` emits one Record although it contains zero
RecordBoundary lines. -/
theorem C7_counterexample :
    parseLines ["Merge: abc"] = .ok [{ merge := some "abc" }] ∧
    countBoundaries ["Merge: abc"] = 0 ∧ (1 : Nat) ≠ 0 := ⟨rfl, rfl, by decide⟩

/-- C7 amended: empty input yields an empty record list, and on every
input on which the batch parse returns, the number of emitted Records
equals the number of RecordBoundary lines, or exceeds it by exactly one
(the excess record arising when field lines precede the first
boundary). -/
theorem C7_amended_thm :
    parse "" = .ok [] ∧ parseLines ([] : List String) = .ok [] ∧
    ∀ (lines : List String) (rs : List Record), parseLines lines = .ok rs →
      rs.length = countBoundaries lines ∨ rs.length = countBoundaries lines + 1 := by
  refine ⟨rfl, rfl, fun lines rs h => ?_⟩
  unfold parseLines at h
  cases hrun : runLines initState lines with
  | error e => rw [hrun] at h; simp at h
  | ok send =>
      rw [hrun] at h
      simp only [] at h
      have hinv0 : RecInv initState 0 :=
        ⟨fun _ => ⟨rfl, rfl⟩, fun hfalse => absurd hfalse (by decide)⟩
      have hinv := run_inv lines hrun hinv0
      rw [Nat.zero_add] at hinv
      unfold finishFlush at h
      by_cases hemp : send.output_line.isEmpty = true
      · rw [if_pos hemp] at h
        cases h
        obtain ⟨hraw, hb0⟩ := hinv.1 hemp
        left
        rw [hraw, hb0]
        rfl
      · rw [if_neg hemp] at h
        cases hfin : finalizeRecord send with
        | error e => rw [hfin] at h; cases h
        | ok r =>
            rw [hfin] at h
            cases h
            rcases hinv.2 (by simpa using hemp) with h1 | h1
            · left
              simp
              omega
            · right
              simp
              omega

/-- Witness for C7: one boundary line, one record. -/
theorem C7_amended_witness :
    parseLines ["commit abc"] = .ok [{ commit := some "abc" }] ∧
    ([({ commit := some "abc" } : Record)].length = countBoundaries ["commit abc"] ∨
     [({ commit := some "abc" } : Record)].length = countBoundaries ["commit abc"] + 1) :=
  ⟨rfl, C7_amended_thm.2.2 ["commit abc"] [{ commit := some "abc" }] rfl⟩

end GitLog
namespace GitLog

/-- Running the loop over a concatenation: run the first part, then the
second from the resulting state. -/
theorem runLines_append (A B : List String) : ∀ s : PState,
    runLines s (A ++ B) = (match runLines s A with
      | .error e => .error e
      | .ok s' => runLines s' B) := by
  induction A with
  | nil => intro s; rfl
  | cons l ls ih =>
      intro s
      rw [List.cons_append]
      rw [show runLines s (l :: (ls ++ B)) = (match step s l with
        | .error e => .error e
        | .ok s1 => runLines s1 (ls ++ B)) from rfl]
      rw [show runLines s (l :: ls) = (match step s l with
        | .error e => .error e
        | .ok s1 => runLines s1 ls) from rfl]
      cases hstep : step s l with
      | error e => rfl
      | ok s1 => exact ih s1

/-- One step from a re-based state: the step behaves identically up to
the emitted-record prefix, and the regex locals of the re-based run
refine those of the plain run (equal whenever the plain run's are
assigned). -/
theorem step_addPre {x x' : PState} {line : String} (pre : List Record) (cv : Option Vars)
    (hcv : ∀ v, x.changes_vars = some v → cv = some v)
    (hx : step x line = .ok x') :
    ∃ cv', step (addPre pre cv x) line = .ok (addPre pre cv' x') ∧
      (∀ v, x'.changes_vars = some v → cv' = some v) := by
  unfold step at hx ⊢
  cases hc : classify line <;> rw [hc] at hx <;> simp only [] at hx ⊢
  case record_boundary_oneline =>
    cases hflush : flushOneline x with
    | error e => rw [hflush] at hx; simp at hx
    | ok sf =>
        rw [hflush] at hx
        simp only [] at hx
        unfold flushOneline at hflush
        unfold flushOneline
        by_cases hoe : x.output_line.isEmpty = true
        · rw [if_pos hoe] at hflush
          cases hflush
          rw [if_pos (show (addPre pre cv x).output_line.isEmpty = true from hoe)]
          simp only []
          split at hx
          · rename_i hsp
            cases hx
            exact ⟨cv, rfl, hcv⟩
          · cases hx
        · rw [if_neg hoe] at hflush
          rw [if_neg (show ¬((addPre pre cv x).output_line.isEmpty = true) from hoe)]
          cases hff : flushFiles x.output_line x.file_list with
          | error e => rw [hff] at hflush; cases hflush
          | ok r =>
              rw [hff] at hflush
              cases hflush
              rw [show flushFiles (addPre pre cv x).output_line (addPre pre cv x).file_list
                  = flushFiles x.output_line x.file_list from rfl, hff]
              simp only []
              split at hx
              · rename_i hsp
                cases hx
                refine ⟨cv, ?_, hcv⟩
                simp [addPre]
              · cases hx
  case record_boundary_commit =>
    cases hflush : flushFull x with
    | error e => rw [hflush] at hx; simp at hx
    | ok sf =>
        rw [hflush] at hx
        simp only [] at hx
        unfold flushFull at hflush
        unfold flushFull
        by_cases hoe : x.output_line.isEmpty = true
        · rw [if_pos hoe] at hflush
          cases hflush
          rw [if_pos (show (addPre pre cv x).output_line.isEmpty = true from hoe)]
          simp only []
          split at hx
          · rename_i hsp
            cases hx
            exact ⟨cv, rfl, hcv⟩
          · cases hx
        · rw [if_neg hoe] at hflush
          rw [if_neg (show ¬((addPre pre cv x).output_line.isEmpty = true) from hoe)]
          cases hff : finalizeRecord x with
          | error e => rw [hff] at hflush; cases hflush
          | ok r =>
              rw [hff] at hflush
              cases hflush
              rw [show finalizeRecord (addPre pre cv x) = finalizeRecord x from rfl, hff]
              simp only []
              split at hx
              · rename_i hsp
                cases hx
                refine ⟨cv, ?_, hcv⟩
                simp [addPre]
              · cases hx
  case merge_parents =>
    split at hx
    · rename_i hsp
      cases hx
      exact ⟨cv, rfl, hcv⟩
    · cases hx
  case author =>
    split at hx
    · rename_i hsp
      split at hx
      · rename_i hrs
        cases hx
        exact ⟨cv, rfl, hcv⟩
      · cases hx
    · cases hx
  case date =>
    split at hx
    · rename_i hsp
      cases hx
      exact ⟨cv, rfl, hcv⟩
    · cases hx
  case author_date =>
    split at hx
    · rename_i hsp
      cases hx
      exact ⟨cv, rfl, hcv⟩
    · cases hx
  case commit_date =>
    split at hx
    · rename_i hsp
      cases hx
      exact ⟨cv, rfl, hcv⟩
    · cases hx
  case committer =>
    split at hx
    · rename_i hsp
      split at hx
      · rename_i hrs
        cases hx
        exact ⟨cv, rfl, hcv⟩
      · cases hx
    · cases hx
  case message_body =>
    cases hx
    exact ⟨cv, rfl, hcv⟩
  case file_name =>
    cases hx
    exact ⟨cv, rfl, hcv⟩
  case change_summary =>
    cases hcm : changes_pattern_match line with
    | some v =>
        try rw [hcm] at hx
        try rw [hcm]
        try simp only [] at hx ⊢
        cases hx
        exact ⟨some v, rfl, fun w hw => hw⟩
    | none =>
        try rw [hcm] at hx
        try rw [hcm]
        try simp only [] at hx ⊢
        cases hxcv : x.changes_vars with
        | none =>
            try rw [hxcv] at hx
            simp at hx
        | some v =>
            try rw [hxcv] at hx
            try simp only [] at hx
            cases hx
            rw [show (addPre pre cv x).changes_vars = cv from rfl, hcv v hxcv]
            simp only []
            exact ⟨some v, rfl, fun w hw => hw⟩
  case unrecognized =>
    cases hx
    exact ⟨cv, rfl, hcv⟩

end GitLog
namespace GitLog

/-- Whole-run version of `step_addPre`: a successful run from a state
re-based over an emitted prefix succeeds with the same relative
behaviour, the prefix surviving in front of the emitted records. -/
theorem runLines_addPre (L : List String) : ∀ {x x' : PState} (pre : List Record)
    (cv : Option Vars), (∀ v, x.changes_vars = some v → cv = some v) →
    runLines x L = .ok x' →
    ∃ cv', runLines (addPre pre cv x) L = .ok (addPre pre cv' x') ∧
      (∀ v, x'.changes_vars = some v → cv' = some v) := by
  induction L with
  | nil =>
      intro x x' pre cv hcv h
      unfold runLines at h
      cases h
      exact ⟨cv, rfl, hcv⟩
  | cons l ls ih =>
      intro x x' pre cv hcv h
      unfold runLines at h
      cases hstep : step x l with
      | error e => rw [hstep] at h; simp at h
      | ok x1 =>
          rw [hstep] at h
          simp only [] at h
          obtain ⟨cv1, hstep', hcv1⟩ := step_addPre pre cv hcv hstep
          obtain ⟨cv', hrun', hcv'⟩ := ih pre cv1 hcv1 h
          refine ⟨cv', ?_, hcv'⟩
          rw [show runLines (addPre pre cv x) (l :: ls) = (match step (addPre pre cv x) l with
            | .error e => .error e
            | .ok s1 => runLines s1 ls) from rfl]
          rw [hstep']
          simp only []
          exact hrun'

/-- The final flush from a re-based state emits the prefix followed by
the plain run's records. -/
theorem finishFlush_addPre {x : PState} {rs : List Record} (pre : List Record)
    (cv : Option Vars) (h : finishFlush x = .ok rs) :
    finishFlush (addPre pre cv x) = .ok (pre ++ rs) := by
  unfold finishFlush at h ⊢
  by_cases hemp : x.output_line.isEmpty = true
  · rw [if_pos hemp] at h
    cases h
    rw [if_pos (show (addPre pre cv x).output_line.isEmpty = true from hemp)]
    rfl
  · rw [if_neg hemp] at h
    rw [if_neg (show ¬((addPre pre cv x).output_line.isEmpty = true) from hemp)]
    cases hfin : finalizeRecord x with
    | error e => rw [hfin] at h; cases h
    | ok r =>
        rw [hfin] at h
        cases h
        rw [show finalizeRecord (addPre pre cv x) = finalizeRecord x from rfl, hfin]
        simp [addPre]

end GitLog
namespace GitLog

/-- A `commit ` boundary step can only succeed when the line splits into
two tokens (otherwise `line_list[1]` raises IndexError). -/
theorem step_commit_needs_two_tokens {s s' : PState} {line : String}
    (hc : classify line = Role.record_boundary_commit)
    (h : step s line = .ok s') :
    ∃ t v, splitMax1 line = [t, v] := by
  unfold step at h
  rw [hc] at h
  simp only [] at h
  cases hflush : flushFull s with
  | error e => rw [hflush] at h; simp at h
  | ok sf =>
      rw [hflush] at h
      simp only [] at h
      split at h
      · rename_i hsp
        exact ⟨_, _, hsp⟩
      · cases h

/-- C9 counterexample: the input `commit aaa` with an indented message
line is valid alone (one record with the message), and the oneline input
is valid alone; but parsing their line-wise concatenation drops the
first record's message (the oneline boundary does not join pending
message lines), so the result is not the concatenation of the two
individual record sequences. -/
theorem C9_counterexample :
    parseLines ["commit aaa", "    hello"] =
      .ok [{ commit := some "aaa", message := some "hello" }] ∧
    parseLines ["0123456789abcdef0123456789abcdef01234567 msg"] =
      .ok [{ commit := some "0123456789abcdef0123456789abcdef01234567",
             message := some "msg" }] ∧
    parseLines (["commit aaa", "    hello"] ++
                ["0123456789abcdef0123456789abcdef01234567 msg"]) =
      .ok [{ commit := some "aaa" },
           { commit := some "0123456789abcdef0123456789abcdef01234567",
             message := some "msg" }] ∧
    ([{ commit := some "aaa", message := some "hello" }] ++
      [{ commit := some "0123456789abcdef0123456789abcdef01234567",
         message := some "msg" }] : List Record) ≠
      [{ commit := some "aaa" },
       { commit := some "0123456789abcdef0123456789abcdef01234567",
         message := some "msg" }] :=
  ⟨rfl, rfl, rfl, by decide⟩

/-- C9 amended: parsing the line-wise concatenation of two inputs yields
the concatenation of their individual record sequences, provided the
first input's run ends with an open record (its trailing lines belong to
a record) and the second input begins with a `commit `-style boundary
line.  (The counterexample shows the property fails when the second
input begins with a oneline boundary, because that boundary discards
pending message lines instead of joining them as the end-of-input flush
does.) -/
theorem C9_amended_thm (A : List String) (b0 : String) (Bs : List String)
    (sA : PState) (rsA rsB : List Record)
    (h1 : runLines initState A = .ok sA)
    (h2 : sA.output_line.isEmpty = false)
    (h3 : finishFlush sA = .ok rsA)
    (h5 : classify b0 = Role.record_boundary_commit)
    (h4 : parseLines (b0 :: Bs) = .ok rsB) :
    parseLines (A ++ b0 :: Bs) = .ok (rsA ++ rsB) := by
  unfold parseLines at h4
  cases hrunB : runLines initState (b0 :: Bs) with
  | error e => rw [hrunB] at h4; simp at h4
  | ok xend =>
      rw [hrunB] at h4
      simp only [] at h4
      rw [show runLines initState (b0 :: Bs) = (match step initState b0 with
        | .error e => .error e
        | .ok s1 => runLines s1 Bs) from rfl] at hrunB
      cases hstep0 : step initState b0 with
      | error e => rw [hstep0] at hrunB; simp at hrunB
      | ok s1 =>
          rw [hstep0] at hrunB
          simp only [] at hrunB
          obtain ⟨t, v, hsp⟩ := step_commit_needs_two_tokens h5 hstep0
          have hstep0' : step initState b0 =
              .ok { initState with output_line := { initState.output_line with commit := some v } } :=
            step_commit_boundary_empty initState b0 t v h5 hsp rfl
          rw [hstep0'] at hstep0
          cases hstep0
          -- decompose the flush of the first input
          unfold finishFlush at h3
          rw [if_neg (by simp [h2])] at h3
          cases hfin : finalizeRecord sA with
          | error e => rw [hfin] at h3; cases h3
          | ok r =>
              rw [hfin] at h3
              cases h3
              have hstepA := step_commit_boundary sA b0 t v r h5 hsp h2 hfin
              unfold parseLines
              rw [runLines_append A (b0 :: Bs) initState, h1]
              simp only []
              rw [show runLines sA (b0 :: Bs) = (match step sA b0 with
                | .error e => .error e
                | .ok s1 => runLines s1 Bs) from rfl]
              rw [hstepA]
              simp only []
              have hrel : ∀ vv : Vars,
                  ({ initState with output_line :=
                      { initState.output_line with commit := some v } } : PState).changes_vars = some vv →
                  sA.changes_vars = some vv := by
                intro vv hvv
                exact absurd hvv (by simp [initState])
              obtain ⟨cv', hrun', hcv'⟩ :=
                runLines_addPre Bs (sA.raw_output ++ [r]) sA.changes_vars hrel hrunB
              have heq : addPre (sA.raw_output ++ [r]) sA.changes_vars
                  ({ initState with output_line :=
                      { initState.output_line with commit := some v } } : PState) =
                  ({ raw_output := sA.raw_output ++ [r],
                     output_line := { commit := some v },
                     message_lines := [], file_list := [],
                     changes_vars := sA.changes_vars } : PState) := by
                simp [addPre, initState]
              rw [heq] at hrun'
              rw [hrun']
              simp only []
              exact finishFlush_addPre (sA.raw_output ++ [r]) cv' h4

/-- Witness for C9: two one-record inputs, the second opening with a
`commit ` boundary. -/
theorem C9_amended_witness :
    runLines initState ["commit aaa"] =
      .ok { raw_output := [], output_line := { commit := some "aaa" },
            message_lines := [], file_list := [], changes_vars := none } ∧
    finishFlush { raw_output := [], output_line := { commit := some "aaa" },
                  message_lines := [], file_list := [], changes_vars := none } =
      .ok [{ commit := some "aaa" }] ∧
    parseLines ["commit bbb"] = .ok [{ commit := some "bbb" }] ∧
    parseLines (["commit aaa"] ++ ["commit bbb"]) =
      .ok ([{ commit := some "aaa" }] ++ [{ commit := some "bbb" }]) :=
  ⟨rfl, rfl, rfl,
   C9_amended_thm ["commit aaa"] "commit bbb" []
     { raw_output := [], output_line := { commit := some "aaa" },
       message_lines := [], file_list := [], changes_vars := none }
     [{ commit := some "aaa" }] [{ commit := some "bbb" }] rfl rfl rfl rfl rfl⟩

end GitLog
